import Mathlib

/-!
# LiftLog club feature: verification of the specification against the source

Shallow embedding of the club-related parts of the LiftLog repository:
the base64 helpers and result handling of `ClubApiService` (club-api.ts),
the club Redux reducers (`app/store/clubs/index.ts`), the club model
classes (club-models.ts), and — modelled from the spec where the code is
not part of the provided sources — the AES-CBC encryption primitives and
the access-control policy.
-/

namespace LiftLog

/-! ## Base64 helpers (club-api.ts, `uint8ArrayToBase64` / `base64ToUint8Array`)

`uint8ArrayToBase64(value) = btoa(String.fromCharCode(...value))` and
`base64ToUint8Array(value) = Uint8Array.from(atob(value), c => c.charCodeAt(0))`.
Byte arrays are `List Nat` with every entry `< 256`; base64 text is `List Char`.
The definitions implement RFC 4648 base64 with `=` padding, exactly the
behaviour of `btoa`/`atob` on binary strings. -/

def base64Chars : List Char :=
  ['A','B','C','D','E','F','G','H','I','J','K','L','M',
   'N','O','P','Q','R','S','T','U','V','W','X','Y','Z',
   'a','b','c','d','e','f','g','h','i','j','k','l','m',
   'n','o','p','q','r','s','t','u','v','w','x','y','z',
   '0','1','2','3','4','5','6','7','8','9','+','/']

/-- The base64 character for a sextet value. -/
def sextetChar (n : Nat) : Char := base64Chars.getD n 'A'

/-- The sextet value of a base64 character. -/
def sextetVal (c : Char) : Nat := base64Chars.indexOf c

/-- `btoa(String.fromCharCode(...value))`: encode bytes in groups of three. -/
def uint8ArrayToBase64 : List Nat → List Char
  | b1 :: b2 :: b3 :: rest =>
      sextetChar (b1 / 4) :: sextetChar ((b1 % 4) * 16 + b2 / 16) ::
      sextetChar ((b2 % 16) * 4 + b3 / 64) :: sextetChar (b3 % 64) ::
      uint8ArrayToBase64 rest
  | [b1, b2] =>
      [sextetChar (b1 / 4), sextetChar ((b1 % 4) * 16 + b2 / 16),
       sextetChar ((b2 % 16) * 4), '=']
  | [b1] =>
      [sextetChar (b1 / 4), sextetChar ((b1 % 4) * 16), '=', '=']
  | [] => []

/-- `Uint8Array.from(atob(value), c => c.charCodeAt(0))`: decode base64
quanta of four characters, honouring `=` padding in the final quantum. -/
def base64ToUint8Array : List Char → List Nat
  | c1 :: c2 :: c3 :: c4 :: rest =>
      if c3 = '=' then
        [sextetVal c1 * 4 + sextetVal c2 / 16]
      else if c4 = '=' then
        [sextetVal c1 * 4 + sextetVal c2 / 16,
         (sextetVal c2 % 16) * 16 + sextetVal c3 / 4]
      else
        (sextetVal c1 * 4 + sextetVal c2 / 16) ::
        ((sextetVal c2 % 16) * 16 + sextetVal c3 / 4) ::
        ((sextetVal c3 % 4) * 64 + sextetVal c4) ::
        base64ToUint8Array rest
  | _ => []

/-! ## Club data model (club-models.ts)

`Instant` values are modelled as integers (epoch instants), `Uint8Array`
and `AesKey` blobs as byte lists, `string | undefined` as `Option String`.
The `_BRAND` discriminator of each POJO variant is kept as a string field,
written by `toPOJO` and ignored by `fromPOJO` (whose source-level input
type is `Omit<..., '_BRAND'>`). -/

abbrev Instant := Int

abbrev AesKey := List Nat

inductive ClubRole
  | owner
  | admin
  | member
  | viewer
deriving DecidableEq, Repr

structure ClubSettingsPOJO where
  brand : String
  membersCanPost : Bool
  membersCanInvite : Bool
  maxMembers : Nat
deriving DecidableEq, Repr

structure ClubSettings where
  membersCanPost : Bool
  membersCanInvite : Bool
  maxMembers : Nat
deriving DecidableEq, Repr

def ClubSettings.fromPOJO (pojo : ClubSettingsPOJO) : ClubSettings :=
  ⟨pojo.membersCanPost, pojo.membersCanInvite, pojo.maxMembers⟩

def ClubSettings.toPOJO (s : ClubSettings) : ClubSettingsPOJO :=
  ⟨"CLUB_SETTINGS_POJO", s.membersCanPost, s.membersCanInvite, s.maxMembers⟩

structure ClubPOJO where
  brand : String
  id : String
  ownerUserId : String
  created : Instant
  name : String
  description : Option String
  profilePicture : Option (List Nat)
  aesKey : AesKey
  isPublic : Bool
  settings : ClubSettingsPOJO
  memberCount : Nat
deriving DecidableEq, Repr

structure Club where
  id : String
  ownerUserId : String
  created : Instant
  name : String
  description : Option String
  profilePicture : Option (List Nat)
  aesKey : AesKey
  isPublic : Bool
  settings : ClubSettings
  memberCount : Nat
deriving DecidableEq, Repr

def Club.fromPOJO (pojo : ClubPOJO) : Club :=
  ⟨pojo.id, pojo.ownerUserId, pojo.created, pojo.name, pojo.description,
   pojo.profilePicture, pojo.aesKey, pojo.isPublic,
   ClubSettings.fromPOJO pojo.settings, pojo.memberCount⟩

def Club.toPOJO (c : Club) : ClubPOJO :=
  ⟨"CLUB_POJO", c.id, c.ownerUserId, c.created, c.name, c.description,
   c.profilePicture, c.aesKey, c.isPublic, c.settings.toPOJO, c.memberCount⟩

structure ClubMemberPOJO where
  brand : String
  clubId : String
  userId : String
  role : ClubRole
  joined : Instant
deriving DecidableEq, Repr

structure ClubMember where
  clubId : String
  userId : String
  role : ClubRole
  joined : Instant
deriving DecidableEq, Repr

def ClubMember.fromPOJO (pojo : ClubMemberPOJO) : ClubMember :=
  ⟨pojo.clubId, pojo.userId, pojo.role, pojo.joined⟩

def ClubMember.toPOJO (m : ClubMember) : ClubMemberPOJO :=
  ⟨"CLUB_MEMBER_POJO", m.clubId, m.userId, m.role, m.joined⟩

/-! ## Club feed items (club-models.ts)

`ClubFeedItem` is the abstract base class with the `ClubSessionFeedItem`
and `ClubAnnouncementFeedItem` subclasses; it is modelled as a tagged sum.
The `Session` payload class lives outside the provided sources and is
opaque here. `withSession`/`withAnnouncement` follow the source including
JavaScript truthiness: `if (!announcement) return this` is taken for both
`undefined` and the empty string, while a `Session` object is always
truthy. -/

structure Session where
  raw : Nat
deriving DecidableEq, Repr

structure ClubSessionFeedItem where
  clubId : String
  userId : String
  eventId : String
  timestamp : Instant
  expiry : Instant
  session : Session
deriving DecidableEq, Repr

structure ClubAnnouncementFeedItem where
  clubId : String
  userId : String
  eventId : String
  timestamp : Instant
  expiry : Instant
  announcement : String
deriving DecidableEq, Repr

inductive ClubFeedItem
  | session (item : ClubSessionFeedItem)
  | announcement (item : ClubAnnouncementFeedItem)
deriving DecidableEq, Repr

def ClubFeedItem.withSession : ClubFeedItem → Option Session → ClubFeedItem
  | .session item, none => .session item
  | .session item, some s => .session { item with session := s }
  | .announcement item, _ => .announcement item

def ClubFeedItem.withAnnouncement : ClubFeedItem → Option String → ClubFeedItem
  | .session item, _ => .session item
  | .announcement item, none => .announcement item
  | .announcement item, some a =>
      if a = "" then .announcement item
      else .announcement { item with announcement := a }

/-- The announcement payload of a feed item, when it is the announcement
variant. -/
def ClubFeedItem.announcementText : ClubFeedItem → Option String
  | .session _ => none
  | .announcement item => some item.announcement

/-! ## Clubs Redux slice (app/store/clubs/index.ts)

A JavaScript `Record<string, T>` is modelled as an insertion-ordered
association list with unique keys: assignment `m[k] = v` overwrites in
place when `k` is present and appends otherwise, and `delete m[k]`
removes the key. The POJO payloads not defined in the provided sources
(`FeedUserPOJO`, `SessionPOJO`) are opaque. -/

structure FeedUserPOJO where
  raw : Nat
deriving DecidableEq, Repr

abbrev SessionPOJO := Nat

inductive ClubFeedItemPOJO
  | session (clubId userId eventId : String) (timestamp expiry : Instant)
      (session : SessionPOJO)
  | announcement (clubId userId eventId : String) (timestamp expiry : Instant)
      (announcement : String)
deriving DecidableEq, Repr

structure ClubInvitePOJO where
  brand : String
  clubId : String
  clubName : String
  clubDescription : Option String
  clubProfilePicture : Option (List Nat)
  clubAesKey : AesKey
  offeredRole : ClubRole
  fromUserId : String
  fromUserName : Option String
deriving DecidableEq, Repr

/-- `m[k] = v` on a JS record: overwrite in place if present, else append. -/
def recordSet {α : Type} (m : List (String × α)) (k : String) (v : α) :
    List (String × α) :=
  if m.any (fun p => p.1 == k) then
    m.map (fun p => if p.1 == k then (k, v) else p)
  else m ++ [(k, v)]

/-- `delete m[k]` on a JS record. -/
def recordDelete {α : Type} (m : List (String × α)) (k : String) :
    List (String × α) :=
  m.filter (fun p => !(p.1 == k))

structure ClubsState where
  isHydrated : Bool
  clubs : List (String × ClubPOJO)
  clubMembers : List (String × List (String × FeedUserPOJO))
  clubFeeds : List (String × List ClubFeedItemPOJO)
  clubInvites : List ClubInvitePOJO
  discoveredClubs : List ClubPOJO
  selectedClubId : Option String
  isFetching : Bool
deriving DecidableEq, Repr

def initialState : ClubsState :=
  ⟨false, [], [], [], [], [], none, false⟩

structure AcceptClubInvitePayload where
  clubId : String
  club : ClubPOJO
deriving DecidableEq, Repr

/-- Reducer `acceptClubInviteCompleted`: drop the pending invites for
`payload.clubId` and store `payload.club` under `payload.club.id`. -/
def acceptClubInviteCompleted (state : ClubsState)
    (payload : AcceptClubInvitePayload) : ClubsState :=
  { state with
    clubInvites := state.clubInvites.filter (fun i => !(i.clubId == payload.clubId))
    clubs := recordSet state.clubs payload.club.id payload.club }

/-- Reducer `declineClubInviteCompleted`: drop the pending invites for
`payload.clubId` and change nothing else. -/
def declineClubInviteCompleted (state : ClubsState) (clubId : String) :
    ClubsState :=
  { state with
    clubInvites := state.clubInvites.filter (fun i => !(i.clubId == clubId)) }

/-- Reducer `leaveClubCompleted`: delete the club, its member map and its
feed from the state. -/
def leaveClubCompleted (state : ClubsState) (clubId : String) : ClubsState :=
  { state with
    clubs := recordDelete state.clubs clubId
    clubMembers := recordDelete state.clubMembers clubId
    clubFeeds := recordDelete state.clubFeeds clubId }

/-! ## ClubApiService result handling (club-api.ts)

`getApiResultAsync` runs an action and converts any thrown value into an
error `ApiResult`; a thrown value is either a `ResponseError` wrapping a
fetch response (raised by `ensureSuccessStatusCode` when `response.ok` is
false) or any other JavaScript error carrying a message. Per the Fetch
standard, `response.ok` is true exactly for statuses 200–299. -/

inductive ApiErrorType
  | NotFound
  | Unauthorized
  | RateLimited
  | Unknown
deriving DecidableEq, Repr

structure ApiError where
  type : ApiErrorType
  message : String
deriving DecidableEq, Repr

inductive ApiResult (T : Type)
  | success (data : T)
  | error (e : ApiError)
deriving DecidableEq, Repr

def ApiResult.isError {T : Type} : ApiResult T → Bool
  | .success _ => false
  | .error _ => true

def ApiResult.errorType {T : Type} : ApiResult T → Option ApiErrorType
  | .success _ => none
  | .error e => some e.type

/-- A value thrown inside a `ClubApiService` action: a `ResponseError`
holding the response's status and status text, or any other error with
its `message`. -/
inductive ThrownValue
  | responseError (status : Nat) (statusText : String)
  | otherError (message : String)
deriving DecidableEq, Repr

/-- `response.ok` (Fetch standard): status in the range 200–299. -/
def responseOk (status : Nat) : Bool := 200 ≤ status && status < 300

/-- `ensureSuccessStatusCode`: throw `ResponseError(response)` unless
`response.ok`. -/
def ensureSuccessStatusCode (status : Nat) (statusText : String) :
    Except ThrownValue Unit :=
  if responseOk status then .ok () else .error (.responseError status statusText)

/-- `getApiResultAsync`: wrap the action's value in a success result, and
map a caught error by HTTP status — 404 to `NotFound`, 401 and 403 to
`Unauthorized`, 429 to `RateLimited`, everything else to `Unknown`. -/
def getApiResult {T : Type} (action : Except ThrownValue T) : ApiResult T :=
  match action with
  | .ok data => .success data
  | .error (.responseError status statusText) =>
      if status = 404 then .error ⟨.NotFound, statusText⟩
      else if status = 401 then .error ⟨.Unauthorized, statusText⟩
      else if status = 403 then
        .error ⟨.Unauthorized, "Forbidden: Insufficient permissions"⟩
      else if status = 429 then .error ⟨.RateLimited, statusText⟩
      else .error ⟨.Unknown, statusText⟩
  | .error (.otherError message) => .error ⟨.Unknown, message⟩

/-- The shared shape of every `ClubApiService` operation: fetch, check the
status code, then parse the body. -/
def runClubApiRequest {T : Type} (status : Nat) (statusText : String)
    (parse : T) : ApiResult T :=
  getApiResult (do
    _ ← ensureSuccessStatusCode status statusText
    pure parse)

structure AcceptClubInviteRequest where
  clubId : String
  userId : String
  password : String
  encryptedAesKey : List Nat
deriving DecidableEq, Repr

/-- `acceptClubInviteAsync`: the action body unconditionally throws
`Error('Not implemented - use inbox system')`. -/
def acceptClubInviteAsync (_request : AcceptClubInviteRequest) : ApiResult Unit :=
  getApiResult (.error (.otherError "Not implemented - use inbox system"))

/-! ## Encryption primitives

Modelled from the spec: the `EncryptionService` (AES-CBC primitives) is
not among the provided sources; §4.1 specifies
`encryptAesCbc(plaintext, key) -> (ciphertext, iv)` with a freshly random
IV per call and `decryptAesCbc(ciphertext, iv, key) -> plaintext` failing
on bad padding or a wrong key. AES-CBC is modelled at block granularity:
a plaintext is a list of blocks (naturals), the block cipher is the
keyed involution `xor key`, chaining and the final padding block follow
CBC with PKCS#7-style padding, and the fresh random IV source is an
injective stream indexed by an explicit draw counter. -/

namespace Crypto

/-- The padding block appended by encryption and checked by decryption. -/
def padBlock : Nat := 16

/-- The fresh-IV source: draw `n` of the system randomness. Injectivity of
the stream models that no two draws return the same IV. -/
def ivDraw (n : Nat) : Nat := n

structure EncryptedPayload where
  encryptedPayload : List Nat
  iv : Nat
deriving DecidableEq, Repr

/-- CBC chaining: each block is xored with the previous ciphertext block
(initially the IV) and then enciphered with the key. -/
def cbcEncryptBlocks (key : Nat) : Nat → List Nat → List Nat
  | _, [] => []
  | prev, p :: rest =>
      let c := (p ^^^ prev) ^^^ key
      c :: cbcEncryptBlocks key c rest

def cbcDecryptBlocks (key : Nat) : Nat → List Nat → List Nat
  | _, [] => []
  | prev, c :: rest =>
      ((c ^^^ key) ^^^ prev) :: cbcDecryptBlocks key c rest

/-- `encryptAesCbc(plaintext, key)`: draw a fresh IV, append the padding
block, CBC-encrypt; returns the payload together with the advanced draw
counter. -/
def encryptAesCbc (plaintext : List Nat) (key : Nat) (rng : Nat) :
    EncryptedPayload × Nat :=
  let iv := ivDraw rng
  (⟨cbcEncryptBlocks key iv (plaintext ++ [padBlock]), iv⟩, rng + 1)

/-- `decryptAesCbc(payload, key)`: CBC-decrypt with the payload's IV and
strip the padding block, failing (`none`, the `DecryptionError` case) when
the padding does not check out. -/
def decryptAesCbc (payload : EncryptedPayload) (key : Nat) :
    Option (List Nat) :=
  let p := cbcDecryptBlocks key payload.iv payload.encryptedPayload
  if p.getLast? = some padBlock then some p.dropLast else none

end Crypto

/-! ## Club metadata encryption flow
(app/store/clubs/effects.ts templates in the implementation guide)

`createClubStarted` encrypts the club name, then — when present — the
description, each through `encryptAesCbcAsync` (hence each under its own
fresh IV), and sends the server `encryptionIv: encryptedName.iv.value`
as the single stored IV. `loadMyClubsStarted` decrypts both
`encryptedName` and `encryptedDescription` with the stored
`clubResponse.encryptionIv`. -/

structure StoredClubMetadata where
  encryptedName : List Nat
  encryptedDescription : Option (List Nat)
  encryptionIv : Nat
deriving DecidableEq, Repr

/-- The metadata part of the `createClubStarted` effect: returns the
fields sent to `createClubAsync` together with the advanced draw
counter. -/
def createClubMetadata (name : List Nat) (description : Option (List Nat))
    (clubAesKey : Nat) (rng : Nat) : StoredClubMetadata × Nat :=
  let (encryptedName, rng1) := Crypto.encryptAesCbc name clubAesKey rng
  match description with
  | none =>
      (⟨encryptedName.encryptedPayload, none, encryptedName.iv⟩, rng1)
  | some d =>
      let (encryptedDescription, rng2) := Crypto.encryptAesCbc d clubAesKey rng1
      (⟨encryptedName.encryptedPayload, some encryptedDescription.encryptedPayload,
        encryptedName.iv⟩, rng2)

structure LoadedClubMetadata where
  name : Option (List Nat)
  description : Option (Option (List Nat))
deriving DecidableEq, Repr

/-- The metadata part of the `loadMyClubsStarted` effect: decrypt the
name, and the description when present, both with the stored
`encryptionIv`. -/
def loadClubMetadata (stored : StoredClubMetadata) (clubAesKey : Nat) :
    LoadedClubMetadata :=
  ⟨Crypto.decryptAesCbc ⟨stored.encryptedName, stored.encryptionIv⟩ clubAesKey,
   stored.encryptedDescription.map (fun ct =>
     Crypto.decryptAesCbc ⟨ct, stored.encryptionIv⟩ clubAesKey)⟩

/-! ## Access-control policy

Modelled from the spec: the backend `AccessControlPolicy` is not among
the provided sources (only the `ClubRole` type is, in club-models.ts);
§4.7 gives the role lattice `Viewer < Member < Admin < Owner` and the
capability table gating every club operation. -/

/-- The rank of a role in the strict order Viewer < Member < Admin < Owner. -/
def roleRank : ClubRole → Nat
  | .viewer => 0
  | .member => 1
  | .admin => 2
  | .owner => 3

inductive ClubOperation
  | viewFeed
  | postFeedItem
  | inviteMember
  | removeMember (targetRole : ClubRole)
  | changeRole (targetRole newRole : ClubRole)
  | updateSettings
  | deleteClub
deriving DecidableEq, Repr

/-- Modelled from the spec: the §4.7 capability table. -/
def permits (actor : ClubRole) (settings : ClubSettings) :
    ClubOperation → Bool
  | .viewFeed => roleRank .member ≤ roleRank actor
  | .postFeedItem =>
      (actor == .member && settings.membersCanPost) ||
      roleRank .admin ≤ roleRank actor
  | .inviteMember =>
      (actor == .member && settings.membersCanInvite) ||
      roleRank .admin ≤ roleRank actor
  | .removeMember target =>
      roleRank .admin ≤ roleRank actor && roleRank target < roleRank actor
  | .changeRole target newRole =>
      roleRank .admin ≤ roleRank actor && roleRank target < roleRank actor &&
      roleRank newRole ≤ roleRank actor
  | .updateSettings => actor == .owner
  | .deleteClub => actor == .owner

/-! ## Sample values for concrete evaluations -/

def sampleSettingsPOJO : ClubSettingsPOJO :=
  ⟨"CLUB_SETTINGS_POJO", true, false, 50⟩

def sampleClubPOJO : ClubPOJO :=
  ⟨"CLUB_POJO", "club-1", "user-2", 0, "My club", none, none, [7, 7],
   true, sampleSettingsPOJO, 2⟩

def sampleInvitePOJO : ClubInvitePOJO :=
  ⟨"CLUB_INVITE_POJO", "club-1", "My club", none, none, [7, 7],
   .member, "user-2", none⟩

def sampleClubsState : ClubsState :=
  ⟨true, [], [], [], [sampleInvitePOJO], [], none, false⟩

def samplePayload : AcceptClubInvitePayload :=
  ⟨"club-1", sampleClubPOJO⟩

/-! ## Helper lemmas -/

theorem sextetVal_sextetChar {i : Nat} (h : i < 64) :
    sextetVal (sextetChar i) = i := by
  interval_cases i <;> rfl

theorem sextetChar_ne_eq {i : Nat} (h : i < 64) : sextetChar i ≠ '=' := by
  interval_cases i <;> decide

theorem xor_left_cancel {a b c : Nat} (h : a ^^^ b = a ^^^ c) :
    b = c := by
  have hb : b = a ^^^ (a ^^^ b) := by
    rw [← Nat.xor_assoc, Nat.xor_self, Nat.zero_xor]
  rw [hb, h, ← Nat.xor_assoc, Nat.xor_self, Nat.zero_xor]

theorem xor_xor_self (x k : Nat) : (x ^^^ k) ^^^ k = x := by
  rw [Nat.xor_assoc, Nat.xor_self, Nat.xor_zero]

theorem cbcDecrypt_cbcEncrypt (key : Nat) (bs : List Nat) : ∀ iv : Nat,
    Crypto.cbcDecryptBlocks key iv (Crypto.cbcEncryptBlocks key iv bs) = bs := by
  induction bs with
  | nil => intro iv; rfl
  | cons p rest ih =>
    intro iv
    simp only [Crypto.cbcEncryptBlocks, Crypto.cbcDecryptBlocks]
    rw [xor_xor_self, xor_xor_self, ih]

theorem decryptAesCbc_encryptAesCbc (P : List Nat) (K rng : Nat) :
    Crypto.decryptAesCbc (Crypto.encryptAesCbc P K rng).1 K = some P := by
  simp only [Crypto.encryptAesCbc, Crypto.decryptAesCbc,
    cbcDecrypt_cbcEncrypt]
  rw [List.getLast?_concat, if_pos rfl, List.dropLast_concat]

theorem cbcEncrypt_head_iv_injective (key iv1 iv2 : Nat) (bs : List Nat)
    (hne : bs ≠ [])
    (h : Crypto.cbcEncryptBlocks key iv1 bs = Crypto.cbcEncryptBlocks key iv2 bs) :
    iv1 = iv2 := by
  obtain ⟨p, rest, rfl⟩ := List.exists_cons_of_ne_nil hne
  simp only [Crypto.cbcEncryptBlocks, List.cons.injEq] at h
  have h1 : p ^^^ iv1 = p ^^^ iv2 := by
    have h2 := congrArg (fun x => x ^^^ key) h.1
    simpa only [xor_xor_self] using h2
  exact xor_left_cancel h1

theorem filter_idem {α : Type} (p : α → Bool) (l : List α) :
    (l.filter p).filter p = l.filter p := by
  induction l with
  | nil => rfl
  | cons a l ih =>
    by_cases h : p a = true
    · simp [List.filter_cons, h, ih]
    · simp only [Bool.not_eq_true] at h
      simp [List.filter_cons, h, ih]

theorem recordSet_map_self {α : Type} (m : List (String × α)) (k : String)
    (v : α) :
    (m.map (fun p => if p.1 == k then (k, v) else p)).map
      (fun p => if p.1 == k then (k, v) else p) =
    m.map (fun p => if p.1 == k then (k, v) else p) := by
  rw [List.map_map]
  apply List.map_congr_left
  intro p _
  rcases eq_or_ne p.1 k with h | h
  · simp [Function.comp, h]
  · simp [Function.comp, h]

theorem recordSet_idem {α : Type} (m : List (String × α)) (k : String)
    (v : α) :
    recordSet (recordSet m k v) k v = recordSet m k v := by
  by_cases h : m.any (fun p => p.1 == k) = true
  · have hset : recordSet m k v =
        m.map (fun p => if p.1 == k then (k, v) else p) := by
      simp [recordSet, h]
    have hany : (m.map (fun p => if p.1 == k then (k, v) else p)).any
        (fun p => p.1 == k) = true := by
      rw [List.any_eq_true] at h ⊢
      obtain ⟨p, hp, hpk⟩ := h
      exact ⟨(k, v), by
        refine ⟨List.mem_map.mpr ⟨p, hp, by simp [hpk]⟩, by simp⟩⟩
    rw [hset, recordSet, if_pos hany, recordSet_map_self]
  · have h' : m.any (fun p => p.1 == k) = false := Bool.eq_false_iff.mpr h
    have hset : recordSet m k v = m ++ [(k, v)] := by
      simp [recordSet, h']
    have hany : (m ++ [(k, v)]).any (fun p => p.1 == k) = true := by
      rw [List.any_eq_true]
      exact ⟨(k, v), by simp⟩
    rw [hset, recordSet, if_pos hany, List.map_append]
    have hm : m.map (fun p => if p.1 == k then (k, v) else p) = m := by
      have hall := List.any_eq_false.mp h'
      conv_rhs => rw [← List.map_id m]
      apply List.map_congr_left
      intro p hp
      have hpk : (p.1 == k) = false :=
        Bool.not_eq_true _ ▸ hall p hp
      simp [hpk]
    rw [hm]
    simp

theorem recordSet_countP_key {α : Type} (m : List (String × α)) (k : String)
    (v : α) (hkeys : (m.map Prod.fst).Nodup) :
    (recordSet m k v).countP (fun p => p.1 == k) = 1 := by
  by_cases h : m.any (fun p => p.1 == k) = true
  · rw [recordSet, if_pos h]
    have hcount : (m.map (fun p => if p.1 == k then (k, v) else p)).countP
        (fun p => p.1 == k) = m.countP (fun p => p.1 == k) := by
      rw [List.countP_map]
      apply List.countP_congr
      intro p _
      by_cases hpk : (p.1 == k) = true
      · simp [Function.comp, hpk]
      · simp only [Bool.not_eq_true] at hpk
        simp [Function.comp, hpk]
    rw [hcount]
    have hkmem : k ∈ m.map Prod.fst := by
      rw [List.any_eq_true] at h
      obtain ⟨p, hp, hpk⟩ := h
      exact List.mem_map.mpr ⟨p, hp, by simpa using hpk⟩
    have : m.countP (fun p => p.1 == k) =
        (m.map Prod.fst).countP (fun a => a == k) := by
      rw [List.countP_map]; rfl
    rw [this]
    have := List.count_eq_one_of_mem hkeys hkmem
    simpa [List.count] using this
  · have h' : m.any (fun p => p.1 == k) = false := Bool.eq_false_iff.mpr h
    rw [recordSet, if_neg (by simp [h']), List.countP_append]
    have hz : m.countP (fun p => p.1 == k) = 0 := by
      rw [List.countP_eq_zero]
      exact List.any_eq_false.mp h'
    simp [hz, List.countP_cons]

/-! ## Claim theorems -/

/-- C9: for every byte array `b`,
`base64ToUint8Array(uint8ArrayToBase64(b))` returns `b`: the base64 encode
and decode helpers at the `ClubApiService` boundary are mutually inverse
on all byte arrays, including the empty array. -/
theorem base64_decode_encode (b : List Nat) (hb : ∀ x ∈ b, x < 256) :
    base64ToUint8Array (uint8ArrayToBase64 b) = b := by
  induction b using uint8ArrayToBase64.induct with
  | case1 b1 b2 b3 rest ih =>
    have h1 : b1 < 256 := hb b1 (by simp)
    have h2 : b2 < 256 := hb b2 (by simp)
    have h3 : b3 < 256 := hb b3 (by simp)
    have hs1 : b1 / 4 < 64 := by omega
    have hs2 : (b1 % 4) * 16 + b2 / 16 < 64 := by omega
    have hs3 : (b2 % 16) * 4 + b3 / 64 < 64 := by omega
    have hs4 : b3 % 64 < 64 := by omega
    simp only [uint8ArrayToBase64, base64ToUint8Array]
    rw [if_neg (sextetChar_ne_eq hs3), if_neg (sextetChar_ne_eq hs4),
      sextetVal_sextetChar hs1, sextetVal_sextetChar hs2,
      sextetVal_sextetChar hs3, sextetVal_sextetChar hs4,
      ih (fun x hx => hb x (by simp [hx]))]
    simp only [List.cons.injEq, and_true]
    refine ⟨by omega, by omega, by omega⟩
  | case2 b1 b2 =>
    have h1 : b1 < 256 := hb b1 (by simp)
    have h2 : b2 < 256 := hb b2 (by simp)
    have hs1 : b1 / 4 < 64 := by omega
    have hs2 : (b1 % 4) * 16 + b2 / 16 < 64 := by omega
    have hs3 : (b2 % 16) * 4 < 64 := by omega
    simp only [uint8ArrayToBase64, base64ToUint8Array]
    rw [if_neg (sextetChar_ne_eq hs3), if_pos trivial,
      sextetVal_sextetChar hs1, sextetVal_sextetChar hs2,
      sextetVal_sextetChar hs3]
    simp only [List.cons.injEq, and_true]
    refine ⟨by omega, by omega⟩
  | case3 b1 =>
    have h1 : b1 < 256 := hb b1 (by simp)
    have hs1 : b1 / 4 < 64 := by omega
    have hs2 : (b1 % 4) * 16 < 64 := by omega
    simp only [uint8ArrayToBase64, base64ToUint8Array]
    rw [if_pos trivial, sextetVal_sextetChar hs1, sextetVal_sextetChar hs2]
    simp only [List.cons.injEq, and_true]
    omega
  | case4 => rfl

/-- Witness for C9 at the concrete byte array `[0, 72, 255]`. -/
theorem base64_decode_encode_witness :
    (∀ x ∈ [0, 72, 255], x < 256) ∧
    base64ToUint8Array (uint8ArrayToBase64 [0, 72, 255]) = [0, 72, 255] :=
  ⟨by decide, base64_decode_encode [0, 72, 255] (by decide)⟩

/-- C8: for every `Club` (and likewise `ClubSettings` and `ClubMember`)
value, `fromPOJO` applied to `toPOJO` reconstructs a value equal to the
original in every field, and `toPOJO` stamps the variant's correct
`_BRAND` tag. -/
theorem pojo_roundtrip_exact (c : Club) (s : ClubSettings) (m : ClubMember) :
    Club.fromPOJO c.toPOJO = c ∧
    ClubSettings.fromPOJO s.toPOJO = s ∧
    ClubMember.fromPOJO m.toPOJO = m ∧
    c.toPOJO.brand = "CLUB_POJO" ∧
    s.toPOJO.brand = "CLUB_SETTINGS_POJO" ∧
    m.toPOJO.brand = "CLUB_MEMBER_POJO" :=
  ⟨rfl, rfl, rfl, rfl, rfl, rfl⟩

/-- C10 counterexample: `withAnnouncement` with the defined payload `""`
does not update the announcement field — the empty string is falsy in
JavaScript, so `if (!announcement) return this` keeps the receiver's old
announcement `"hello"` instead of setting `""`. -/
theorem withAnnouncement_empty_string_cex :
    (ClubFeedItem.withAnnouncement
      (.announcement ⟨"club-1", "user-1", "event-1", 0, 10, "hello"⟩)
      (some "")).announcementText = some "hello" ∧
    some ("hello" : String) ≠ some "" := by
  refine ⟨rfl, by decide⟩

/-- C10 (amended): cross-variant updates on feed items are identities,
`withSession undefined` and `withAnnouncement undefined` are identities on
both variants, `withAnnouncement ""` (a falsy payload) is also an identity
on the announcement variant, and a same-variant update with a defined
truthy payload (any session; a non-empty announcement) changes only the
payload field, leaving clubId, userId, eventId, timestamp and expiry
unchanged. -/
theorem clubFeedItem_with_updates (si : ClubSessionFeedItem)
    (ai : ClubAnnouncementFeedItem) (s : Session) (a : String)
    (ha : a ≠ "") :
    (∀ x : Option String,
      ClubFeedItem.withAnnouncement (.session si) x = .session si) ∧
    (∀ x : Option Session,
      ClubFeedItem.withSession (.announcement ai) x = .announcement ai) ∧
    ClubFeedItem.withSession (.session si) none = .session si ∧
    ClubFeedItem.withAnnouncement (.announcement ai) none = .announcement ai ∧
    ClubFeedItem.withAnnouncement (.announcement ai) (some "") =
      .announcement ai ∧
    ClubFeedItem.withSession (.session si) (some s) =
      .session ⟨si.clubId, si.userId, si.eventId, si.timestamp, si.expiry, s⟩ ∧
    ClubFeedItem.withAnnouncement (.announcement ai) (some a) =
      .announcement
        ⟨ai.clubId, ai.userId, ai.eventId, ai.timestamp, ai.expiry, a⟩ := by
  refine ⟨fun x => by cases x <;> rfl, fun x => by cases x <;> rfl, rfl, rfl,
    by simp [ClubFeedItem.withAnnouncement], rfl,
    by simp [ClubFeedItem.withAnnouncement, ha]⟩

/-- Witness for C10 (amended) at a concrete announcement item and the
payload `"new"`. -/
theorem clubFeedItem_with_updates_witness :
    ("new" : String) ≠ "" ∧
    ClubFeedItem.withAnnouncement
      (.announcement ⟨"c", "u", "e", 0, 10, "old"⟩) (some "new") =
      .announcement ⟨"c", "u", "e", 0, 10, "new"⟩ :=
  ⟨by decide,
   (clubFeedItem_with_updates ⟨"c", "u", "e", 0, 10, ⟨0⟩⟩
     ⟨"c", "u", "e", 0, 10, "old"⟩ ⟨0⟩ "new" (by decide)).2.2.2.2.2.2⟩

/-- C2: `acceptClubInviteAsync` never completes without error — for every
request its action body throws `Error('Not implemented - use inbox
system')`, so the result is an error `ApiResult` of type `Unknown` and no
`ClubMember` row is created. -/
theorem acceptClubInviteAsync_always_errors
    (request : AcceptClubInviteRequest) :
    acceptClubInviteAsync request =
      .error ⟨.Unknown, "Not implemented - use inbox system"⟩ ∧
    (acceptClubInviteAsync request).isError = true :=
  ⟨rfl, rfl⟩

/-- C3: for every `ClubApiService` request whose HTTP response has a
non-success status, the operation returns an error `ApiResult` (never
throws, never a success), whose type is `NotFound` for 404, `Unauthorized`
for 401 and for 403, `RateLimited` for 429, and `Unknown` for every other
failure status. -/
theorem clubApi_error_mapping {T : Type} (status : Nat) (statusText : String)
    (parse : T) (h : responseOk status = false) :
    (runClubApiRequest status statusText parse).isError = true ∧
    (runClubApiRequest status statusText parse).errorType = some
      (if status = 404 then ApiErrorType.NotFound
       else if status = 401 ∨ status = 403 then ApiErrorType.Unauthorized
       else if status = 429 then ApiErrorType.RateLimited
       else ApiErrorType.Unknown) := by
  have hrun : runClubApiRequest status statusText parse =
      getApiResult (T := T) (.error (.responseError status statusText)) := by
    simp [runClubApiRequest, ensureSuccessStatusCode, h, Bind.bind,
      Except.bind]
  rw [hrun]
  by_cases h404 : status = 404
  · simp [getApiResult, h404, ApiResult.isError, ApiResult.errorType]
  · by_cases h401 : status = 401
    · simp [getApiResult, h404, h401, ApiResult.isError, ApiResult.errorType]
    · by_cases h403 : status = 403
      · simp [getApiResult, h404, h401, h403, ApiResult.isError,
          ApiResult.errorType]
      · by_cases h429 : status = 429
        · simp [getApiResult, h404, h401, h403, h429, ApiResult.isError,
            ApiResult.errorType]
        · simp [getApiResult, h404, h401, h403, h429, ApiResult.isError,
            ApiResult.errorType]

/-- Witness for C3 at the concrete response status 403 (a permission
failure): surfaced as an `Unauthorized` error result. -/
theorem clubApi_error_mapping_witness :
    responseOk 403 = false ∧
    (runClubApiRequest 403 "Forbidden" (0 : Nat)).isError = true ∧
    (runClubApiRequest 403 "Forbidden" (0 : Nat)).errorType =
      some ApiErrorType.Unauthorized := by
  have h := clubApi_error_mapping (T := Nat) 403 "Forbidden" 0 (by decide)
  exact ⟨by decide, h.1, by rw [h.2]; decide⟩

/-- C5: AES-CBC round-trip and IV freshness — for all plaintexts `P` and
keys `K`, decrypting the payload produced by `encryptAesCbc P K` with the
same `K` returns `P`; and each call draws a fresh IV from the randomness
stream, so two calls at distinct draws (even with the same `P` and `K`)
produce distinct IVs and distinct ciphertexts. -/
theorem encryptAesCbc_roundtrip_fresh (P : List Nat) (K r1 r2 : Nat)
    (h : r1 ≠ r2) :
    Crypto.decryptAesCbc (Crypto.encryptAesCbc P K r1).1 K = some P ∧
    (Crypto.encryptAesCbc P K r1).1.iv ≠ (Crypto.encryptAesCbc P K r2).1.iv ∧
    (Crypto.encryptAesCbc P K r1).1.encryptedPayload ≠
      (Crypto.encryptAesCbc P K r2).1.encryptedPayload ∧
    (Crypto.encryptAesCbc P K r1).2 = r1 + 1 := by
  refine ⟨decryptAesCbc_encryptAesCbc P K r1, ?_, ?_, rfl⟩
  · simpa [Crypto.encryptAesCbc, Crypto.ivDraw] using h
  · intro hct
    apply h
    have hiv : Crypto.ivDraw r1 = Crypto.ivDraw r2 := by
      apply cbcEncrypt_head_iv_injective K _ _ (P ++ [Crypto.padBlock])
        (by simp)
      simpa [Crypto.encryptAesCbc] using hct
    simpa [Crypto.ivDraw] using hiv

/-- Witness for C5 at the concrete plaintext `[1, 2]`, key `5` and draws
`0` and `1`. -/
theorem encryptAesCbc_roundtrip_fresh_witness :
    (0 : Nat) ≠ 1 ∧
    (Crypto.decryptAesCbc (Crypto.encryptAesCbc [1, 2] 5 0).1 5 =
        some [1, 2] ∧
      (Crypto.encryptAesCbc [1, 2] 5 0).1.iv ≠
        (Crypto.encryptAesCbc [1, 2] 5 1).1.iv ∧
      (Crypto.encryptAesCbc [1, 2] 5 0).1.encryptedPayload ≠
        (Crypto.encryptAesCbc [1, 2] 5 1).1.encryptedPayload ∧
      (Crypto.encryptAesCbc [1, 2] 5 0).2 = 0 + 1) :=
  ⟨by decide, encryptAesCbc_roundtrip_fresh [1, 2] 5 0 1 (by decide)⟩

/-- C1 evaluation at a failing input: the create-club flow encrypts the
description under its own fresh IV but stores only the name's IV
(`encryptionIv: encryptedName.iv.value`), and the load-my-clubs flow
decrypts the description with that stored IV. With name bytes `[1]`,
description bytes `[2]`, club key `0` and IV draws starting at `0`, the
name is recovered exactly but the description decrypts to `[3]`, not the
original `[2]`. -/
theorem createClub_load_description_mismatch :
    loadClubMetadata (createClubMetadata [1] (some [2]) 0 0).1 0 =
      ⟨some [1], some (some [3])⟩ ∧
    (some (some [3]) : Option (Option (List Nat))) ≠ some (some [2]) := by
  refine ⟨by decide, by decide⟩

/-- C4: the `acceptClubInviteCompleted` reducer is idempotent — applying
it twice with the same payload yields the same state as applying it once —
and for a payload whose `clubId` matches its club's `id` the resulting
state holds exactly one club record for that club id and no pending invite
for it (given the JS-record invariant that club keys are unique). -/
theorem acceptClubInviteCompleted_idempotent (s : ClubsState)
    (p : AcceptClubInvitePayload)
    (hkeys : (s.clubs.map Prod.fst).Nodup) (hid : p.clubId = p.club.id) :
    acceptClubInviteCompleted (acceptClubInviteCompleted s p) p =
      acceptClubInviteCompleted s p ∧
    (acceptClubInviteCompleted s p).clubs.countP
      (fun q => q.1 == p.clubId) = 1 ∧
    (acceptClubInviteCompleted s p).clubInvites.all
      (fun i => !(i.clubId == p.clubId)) = true := by
  refine ⟨?_, ?_, ?_⟩
  · simp only [acceptClubInviteCompleted]
    rw [recordSet_idem, filter_idem]
  · simp only [acceptClubInviteCompleted]
    rw [hid]
    exact recordSet_countP_key s.clubs p.club.id p.club hkeys
  · simp only [acceptClubInviteCompleted]
    rw [List.all_eq_true]
    intro i hi
    exact (List.mem_filter.mp hi).2

/-- Witness for C4 at a concrete state holding one pending invite for
`club-1` and no club records. -/
theorem acceptClubInviteCompleted_idempotent_witness :
    (sampleClubsState.clubs.map Prod.fst).Nodup ∧
    samplePayload.clubId = samplePayload.club.id ∧
    (acceptClubInviteCompleted
        (acceptClubInviteCompleted sampleClubsState samplePayload)
        samplePayload =
      acceptClubInviteCompleted sampleClubsState samplePayload ∧
    (acceptClubInviteCompleted sampleClubsState samplePayload).clubs.countP
      (fun q => q.1 == samplePayload.clubId) = 1 ∧
    (acceptClubInviteCompleted sampleClubsState samplePayload).clubInvites.all
      (fun i => !(i.clubId == samplePayload.clubId)) = true) :=
  ⟨by simp [sampleClubsState], rfl,
   acceptClubInviteCompleted_idempotent sampleClubsState samplePayload
     (by simp [sampleClubsState]) rfl⟩

/-- C6: the access-control policy permits each operation exactly as the
§4.7 capability table specifies and rejects it otherwise, under the strict
role order viewer < member < admin < owner: viewing the feed requires at
least member; posting requires member with `membersCanPost` or admin and
above; inviting requires member with `membersCanInvite` or admin and
above; removing a member requires admin and above with the target strictly
below the actor; changing a role additionally requires the new role at
most the actor's; updating settings and deleting the club are
owner-only. -/
theorem accessControlPolicy_capability_matrix (s : ClubSettings)
    (target newRole : ClubRole) :
    (roleRank .viewer < roleRank .member ∧
     roleRank .member < roleRank .admin ∧
     roleRank .admin < roleRank .owner) ∧
    (permits .viewer s .viewFeed = false ∧
     permits .member s .viewFeed = true ∧
     permits .admin s .viewFeed = true ∧
     permits .owner s .viewFeed = true) ∧
    (permits .viewer s .postFeedItem = false ∧
     permits .member s .postFeedItem = s.membersCanPost ∧
     permits .admin s .postFeedItem = true ∧
     permits .owner s .postFeedItem = true) ∧
    (permits .viewer s .inviteMember = false ∧
     permits .member s .inviteMember = s.membersCanInvite ∧
     permits .admin s .inviteMember = true ∧
     permits .owner s .inviteMember = true) ∧
    (permits .viewer s (.removeMember target) = false ∧
     permits .member s (.removeMember target) = false ∧
     permits .admin s (.removeMember target) =
       (target == .viewer || target == .member) ∧
     permits .owner s (.removeMember target) = !(target == .owner)) ∧
    (permits .viewer s (.changeRole target newRole) = false ∧
     permits .member s (.changeRole target newRole) = false ∧
     permits .admin s (.changeRole target newRole) =
       ((target == .viewer || target == .member) && !(newRole == .owner)) ∧
     permits .owner s (.changeRole target newRole) = !(target == .owner)) ∧
    (permits .viewer s .updateSettings = false ∧
     permits .member s .updateSettings = false ∧
     permits .admin s .updateSettings = false ∧
     permits .owner s .updateSettings = true) ∧
    (permits .viewer s .deleteClub = false ∧
     permits .member s .deleteClub = false ∧
     permits .admin s .deleteClub = false ∧
     permits .owner s .deleteClub = true) := by
  obtain ⟨mcp, mci, mm⟩ := s
  cases target <;> cases newRole <;> cases mcp <;> cases mci <;>
    simp [permits, roleRank]

/-- C7: after `leaveClubCompleted` for a club id `c`, the state contains
no entry for `c` in `clubs`, `clubMembers` or `clubFeeds`; every entry for
any other club id is unchanged, as are `clubInvites`, `discoveredClubs`,
`selectedClubId`, `isFetching` and `isHydrated`. -/
theorem leaveClubCompleted_removes_only_club (s : ClubsState) (c k : String)
    (v : ClubPOJO) (mv : List (String × FeedUserPOJO))
    (fv : List ClubFeedItemPOJO) :
    ((k, v) ∈ (leaveClubCompleted s c).clubs ↔ (k, v) ∈ s.clubs ∧ k ≠ c) ∧
    ((k, mv) ∈ (leaveClubCompleted s c).clubMembers ↔
      (k, mv) ∈ s.clubMembers ∧ k ≠ c) ∧
    ((k, fv) ∈ (leaveClubCompleted s c).clubFeeds ↔
      (k, fv) ∈ s.clubFeeds ∧ k ≠ c) ∧
    (leaveClubCompleted s c).clubInvites = s.clubInvites ∧
    (leaveClubCompleted s c).discoveredClubs = s.discoveredClubs ∧
    (leaveClubCompleted s c).selectedClubId = s.selectedClubId ∧
    (leaveClubCompleted s c).isFetching = s.isFetching ∧
    (leaveClubCompleted s c).isHydrated = s.isHydrated := by
  refine ⟨?_, ?_, ?_, rfl, rfl, rfl, rfl, rfl⟩ <;>
    simp [leaveClubCompleted, recordDelete, List.mem_filter]

end LiftLog
